import Mathlib

/-!
Verification development for the Agnostr chat client core
(`src/pwa-nostr-chat/src/components/Chat.tsx`).

The definitions below are a shallow embedding of the synchronization and
signing core: the message record, tag lookup, channel-name normalization,
hex encoding/decoding of secrets, the per-channel cache, the working-set
admission performed inside the subscription callback and the optimistic
publish callback, the ephemeral-key effects for Auto mode, secret parsing,
and the send pipeline.  External capabilities (the NIP-19 decoder, the
NIP-07 extension signer, `finalizeEvent`, `getPublicKey`) are passed in as
function parameters, mirroring their role as black-box collaborators.
-/

/-- The `ChatMessage` record kept in the working set (Chat.tsx lines 5-11). -/
structure ChatMessage where
  id : String
  content : String
  pubkey : String
  created_at : Nat
  tags : List (List String)
deriving DecidableEq, Repr

/-- Character-list test that `p` is a leading segment of `s` (JS
`String.prototype.startsWith`). -/
def listStartsWith : List Char → List Char → Bool
  | _, [] => true
  | [], _ :: _ => false
  | c :: cs, p :: ps => c == p && listStartsWith cs ps

/-- JS `s.startsWith(p)`. -/
def jsStartsWith (s p : String) : Bool :=
  listStartsWith s.toList p.toList

/-- JS `s.slice(n)` for a non-negative `n` (drop the first `n` characters). -/
def jsDrop (s : String) (n : Nat) : String :=
  String.mk (s.toList.drop n)

/-- JS `s.toLowerCase()` on the ASCII strings this client handles. -/
def jsToLower (s : String) : String :=
  String.mk (s.toList.map Char.toLower)

/-- The whitespace characters JS `String.prototype.trim` strips in the
inputs this client sees (space, tab, line feed, carriage return, by code
point). -/
def isJsWhitespace (c : Char) : Bool :=
  c.toNat = 32 || c.toNat = 9 || c.toNat = 10 || c.toNat = 13

/-- JS `s.trim()` on a character list: strip leading and trailing
whitespace. -/
def jsTrimL (cs : List Char) : List Char :=
  ((cs.dropWhile isJsWhitespace).reverse.dropWhile isJsWhitespace).reverse

/-- JS `s.trim()`. -/
def jsTrim (s : String) : String :=
  String.mk (jsTrimL s.toList)

/-- `getTagValue(tags, key)` (Chat.tsx 44-49): first tag whose head is `key`
and which has a string second component. -/
def getTagValue : List (List String) → String → Option String
  | [], _ => none
  | t :: rest, key =>
    match t with
    | k :: v :: _ => if k = key then some v else getTagValue rest key
    | _ => getTagValue rest key

/-- `s.replace(/^#/, '')`: strip one leading `#` if present. -/
def stripHash (s : String) : String :=
  if jsStartsWith s "#" then jsDrop s 1 else s

/-- `group.replace(/^#/, '').toLowerCase()` (Chat.tsx 117, 122, 141, 367). -/
def normalizeGroup (s : String) : String :=
  jsToLower (stripHash s)

/-- Numeric value of one hex digit, `none` for a non-digit; written over
the character's code point (48-57 are `0`-`9`, 97-102 are `a`-`f`, 65-70
are `A`-`F`). -/
def hexDigitVal (c : Char) : Option Nat :=
  let n := c.toNat
  if 48 ≤ n ∧ n ≤ 57 then some (n - 48)
  else if 97 ≤ n ∧ n ≤ 102 then some (n - 87)
  else if 65 ≤ n ∧ n ≤ 70 then some (n - 55)
  else none

/-- JS hex-digit test used by the regex `[0-9a-fA-F]`. -/
def isHexDigitB (c : Char) : Bool :=
  (hexDigitVal c).isSome

/-- The regex test `/^[0-9a-fA-F]{64}$/.test(s)` (Chat.tsx 212, 222, 264, 339). -/
def validHex64 (s : String) : Bool :=
  s.length == 64 && s.toList.all isHexDigitB

/-- `parseInt(two-char-string, 16)` followed by the `Uint8Array` store:
`parseInt` parses the longest valid prefix, `NaN` is stored as `0`. -/
def jsParseIntPair (c1 c2 : Char) : Nat :=
  match hexDigitVal c1 with
  | none => 0
  | some v1 =>
    match hexDigitVal c2 with
    | none => v1
    | some v2 => 16 * v1 + v2

/-- Consume a character list two at a time, producing one byte per pair;
this is the loop `out[i] = parseInt(clean.slice(i*2, i*2+2), 16)` for the
even-length inputs on which the code invokes it. -/
def hexPairs : List Char → List Nat
  | c1 :: c2 :: rest => jsParseIntPair c1 c2 :: hexPairs rest
  | _ => []

/-- `hexToBytes` (Chat.tsx 279-284): lower-case the string, then decode
byte pairs. -/
def hexToBytes (s : String) : List Nat :=
  hexPairs ((jsToLower s).toList)

/-- `n.padStart(2, '0')` on a character list. -/
def jsPadStart2 (cs : List Char) : List Char :=
  List.replicate (2 - cs.length) '0' ++ cs

/-- `b.toString(16).padStart(2, '0')`: base-16 rendering (lower-case
digits, as JS produces) left-padded to two characters. -/
def byteHexChars (b : Nat) : List Char :=
  jsPadStart2 (Nat.toDigits 16 b)

/-- `bytesToHex` (Chat.tsx 275-277): map each byte to its padded two-digit
hex form and join. -/
def bytesToHex (bs : List Nat) : String :=
  String.mk ((bs.map byteHexChars).flatten)

/-- The working-set comparator `(a, b) => a.created_at - b.created_at`. -/
def byTime (a b : ChatMessage) : Prop :=
  a.created_at ≤ b.created_at

instance : DecidableRel byTime := fun a b => Nat.decLe _ _

instance : IsTotal ChatMessage byTime := ⟨fun a b => Nat.le_total _ _⟩

instance : IsTrans ChatMessage byTime := ⟨fun _ _ _ => Nat.le_trans⟩

/-- `next.sort((a, b) => a.created_at - b.created_at)` (Chat.tsx 156, 364):
JS `Array.prototype.sort` with this comparator is the stable sort by
`created_at`, i.e. insertion sort by `byTime`. -/
def sortMsgs (l : List ChatMessage) : List ChatMessage :=
  List.insertionSort byTime l

/-- The durable key/value cache store (`localStorage` restricted to the
`agnostr_cache_*` keys), with JSON serialization modelled as the identity
on well-formed entries. -/
abbrev CacheStorage : Type := String → Option (List ChatMessage)

/-- `cacheKeyForGroup` (Chat.tsx 51-53). -/
def cacheKeyForGroup (normalizedGroup : String) : String :=
  "agnostr_cache_" ++ normalizedGroup

/-- `loadCachedMessages` (Chat.tsx 55-65): missing or corrupt data reads
as the empty list. -/
def loadCachedMessages (st : CacheStorage) (normalizedGroup : String) : List ChatMessage :=
  (st (cacheKeyForGroup normalizedGroup)).getD []

/-- `saveCachedMessages` (Chat.tsx 67-72): truncate to `messages.slice(-500)`
and store under the channel's derived key. -/
def saveCachedMessages (st : CacheStorage) (normalizedGroup : String)
    (messages : List ChatMessage) : CacheStorage :=
  fun k =>
    if k = cacheKeyForGroup normalizedGroup
    then some (messages.drop (messages.length - 500))
    else st k

/-- The group-tag check applied to each cached or incoming message
(Chat.tsx 121-124, 141): `(getTagValue(tags,'g') || '').replace(/^#/,'').toLowerCase()`. -/
def msgGroup (m : ChatMessage) : String :=
  normalizeGroup ((getTagValue m.tags "g").getD "")

/-- The hydration filter of Chat.tsx 121-124. -/
def channelFilter (normalized : String) (l : List ChatMessage) : List ChatMessage :=
  l.filter (fun m => msgGroup m == normalized)

/-- Relay subscription filter record (Chat.tsx 130-132). -/
structure NostrFilter where
  kinds : List Nat
  gTags : List String
  tTags : List String
  since : Int
  limit : Nat
deriving DecidableEq, Repr

/-- The channel-switch effect body (Chat.tsx 112-135): normalize the group
name, seed the working set from the filtered cache, and build the
subscription filter list.  `nowMs` is `Date.now()`. -/
def subscribeEffect (group : String) (st : CacheStorage) (nowMs : Nat) :
    List ChatMessage × List NostrFilter :=
  let normalized := normalizeGroup group
  let filtered := channelFilter normalized (loadCachedMessages st normalized)
  let since : Int := (nowMs / 1000 : Nat) - (60 * 60 * 24 : Int)
  (filtered,
    [{ kinds := [20000], gTags := [normalized], tTags := ["teleport"],
       since := since, limit := 500 }])

/-- The shared dedup-insert-sort core of both `setMessages` admission
callbacks (Chat.tsx 144-156 and 350-364): discard the candidate if its
`id` is already present, otherwise append and re-sort by `created_at`. -/
def admitCore (prev : List ChatMessage) (ev : ChatMessage) : List ChatMessage :=
  if prev.any (fun m => m.id == ev.id) then prev
  else sortMsgs (prev ++ [ev])

/-- The network-subscription admission (Chat.tsx 137-160): re-validate the
group and topic tags against the active channel before the core admission. -/
def oneventAdmit (normalized : String) (prev : List ChatMessage) (ev : ChatMessage) :
    List ChatMessage :=
  if msgGroup ev == normalized && getTagValue ev.tags "t" == some "teleport"
  then admitCore prev ev
  else prev

/-- The optimistic publish admission (Chat.tsx 350-364): the core admission
with no tag re-validation. -/
def publishAdmit (prev : List ChatMessage) (ev : ChatMessage) : List ChatMessage :=
  admitCore prev ev

/-- A candidate event offered to the working set: from the network
subscription or from a resolved local publish. -/
inductive Candidate where
  | net (ev : ChatMessage)
  | pub (ev : ChatMessage)
deriving DecidableEq

/-- Admission of one candidate into the working set of the channel
`normalized`. -/
def admitCandidate (normalized : String) (prev : List ChatMessage) :
    Candidate → List ChatMessage
  | .net ev => oneventAdmit normalized prev ev
  | .pub ev => publishAdmit prev ev

/-- The event carried by a candidate. -/
def candidateEvent : Candidate → ChatMessage
  | .net ev => ev
  | .pub ev => ev

/-- The ids held by a working set. -/
def wsIds (l : List ChatMessage) : List String :=
  l.map ChatMessage.id

/-- The three signing modes (Chat.tsx 80-82). -/
inductive SignMode where
  | extension
  | localKey
  | auto
deriving DecidableEq

/-- The component state touched by the two ephemeral-key effects:
`ephemeralSkHex` and `autoPubkey` (Chat.tsx 85-86). -/
structure AutoKeyState where
  ephemeralSkHex : Option String
  autoPubkey : Option String
deriving DecidableEq

/-- The load effect (Chat.tsx 209-217): if `localStorage['ephemeral_sk']`
holds a 64-hex string, queue `ephemeralSkHex := saved` and
`autoPubkey := getPublicKey(hexToBytes(saved))`.  `pk` is the external
`getPublicKey` capability on 32-byte secrets. -/
def loadEffect (pk : List Nat → String) (storage : Option String)
    (st : AutoKeyState) : AutoKeyState :=
  match storage with
  | some saved =>
    if validHex64 saved
    then { st with ephemeralSkHex := some saved,
                   autoPubkey := some (pk (hexToBytes saved)) }
    else st
  | none => st

/-- The ensure effect (Chat.tsx 220-230).  `render` is the state snapshot
the effect closure reads (the state of the render that committed), `st`
the state accumulated from updates queued earlier in the same flush, and
`fresh` the result of `generateSecretKey()`.  When the snapshot shows no
valid key while the mode is auto, a fresh key is generated, both state
fields are queued, and the hex form is written to storage. -/
def ensureEffect (pk : List Nat → String) (fresh : List Nat)
    (render : AutoKeyState) (mode : SignMode)
    (st : AutoKeyState) (storage : Option String) : AutoKeyState × Option String :=
  if mode ≠ SignMode.auto then (st, storage)
  else if (match render.ephemeralSkHex with
           | some h => validHex64 h
           | none => false)
  then (st, storage)
  else
    let hex := bytesToHex fresh
    ({ st with ephemeralSkHex := some hex, autoPubkey := some (pk fresh) },
     some hex)

/-- The mount sequence for the ephemeral key.  React runs both effects in
one passive-effect flush of the mounted render: each closure reads the
mounted render's state snapshot (`⟨none, none⟩`), while the queued state
updates apply in declaration order — the load effect's updates first, then
the ensure effect's.  Hence the ensure effect's guard reads the snapshot,
not the state the load effect queued. -/
def mountAuto (pk : List Nat → String) (fresh : List Nat)
    (storage : Option String) (mode : SignMode) : AutoKeyState × Option String :=
  let st0 : AutoKeyState := ⟨none, none⟩
  let st1 := loadEffect pk storage st0
  ensureEffect pk fresh st0 mode st1 storage

/-- A later activation of auto mode (the ensure effect re-running after a
`signMode` change on a subsequent render): by then the committed state and
the closure snapshot agree. -/
def activateAuto (pk : List Nat → String) (fresh : List Nat)
    (st : AutoKeyState) (storage : Option String) : AutoKeyState × Option String :=
  ensureEffect pk fresh st SignMode.auto st storage

/-- `t.startsWith('0x') ? t.slice(2) : t` (Chat.tsx 263). -/
def strip0x (t : String) : String :=
  if jsStartsWith t "0x" then jsDrop t 2 else t

/-- The raw-hex acceptance test of `parseSecretKey`: after optionally
stripping a `0x` prefix, exactly 64 hex digits remain. -/
def rawHexForm (t : String) : Bool :=
  validHex64 (strip0x t)

/-- `parseSecretKey` (Chat.tsx 251-273).  `nsecDecode` is the external
`nip19.decode` capability restricted to the `nsec` outcome: `none` models
a decode throw or a non-`nsec` result.  The hex branch decodes the digit
pairs without lower-casing (`parseInt` accepts both cases). -/
def parseSecretKey (nsecDecode : String → Option (List Nat)) (text : String) :
    Option (List Nat) :=
  if (jsTrim text).toList.isEmpty then none
  else if jsStartsWith (jsTrim text) "nsec" then nsecDecode (jsTrim text)
  else if rawHexForm (jsTrim text) then some (hexPairs (strip0x (jsTrim text)).toList)
  else none

/-- The unsigned event template record (`EventTemplate`). -/
structure EventTemplate where
  kind : Nat
  created_at : Nat
  content : String
  tags : List (List String)
deriving DecidableEq, Repr

/-- Template construction in `handleSend` (Chat.tsx 310-321): note the
group is only stripped of a leading `#`, not lower-cased, and the nickname
is trimmed.  `nowMs` is `Date.now()`. -/
def buildTemplate (group input nickname : String) (nowMs : Nat) : EventTemplate :=
  { kind := 20000
    created_at := nowMs / 1000
    content := jsTrim input
    tags := [["g", stripHash group], ["t", "teleport"], ["n", jsTrim nickname]] }

/-- Outcome of one `handleSend` invocation. -/
inductive SendOutcome where
  | silentAbort
  | signingUnavailable
  | publishFailed
  | published (ev : ChatMessage)
deriving DecidableEq

/-- Whether the outcome surfaces a user-facing notice (an `alert`):
identity failures do (Chat.tsx 325, 333, 340), as does total publish
failure (374); the empty-input early return does not (306). -/
def surfacesNotice : SendOutcome → Bool
  | .signingUnavailable => true
  | .publishFailed => true
  | _ => false

/-- The ambient capabilities and mode flags `handleSend` closes over. -/
structure SendEnv where
  signMode : SignMode
  isNip07 : Bool
  extSign : EventTemplate → ChatMessage
  nsecDecode : String → Option (List Nat)
  finalize : EventTemplate → List Nat → ChatMessage
  publishOk : Bool

/-- The mode dispatch of `handleSend` (Chat.tsx 322-345): resolve an
identity for the current mode and sign the template with it, or report
that no identity is resolvable (`none`, the paths that alert and return). -/
def signFor (env : SendEnv) (unsigned : EventTemplate) (secretInput : String)
    (ephemeralSkHex : Option String) : Option ChatMessage :=
  match env.signMode with
  | .extension =>
    if env.isNip07 then some (env.extSign unsigned) else none
  | .localKey =>
    match parseSecretKey env.nsecDecode secretInput with
    | some sk => some (env.finalize unsigned sk)
    | none => none
  | .auto =>
    match ephemeralSkHex with
    | some h =>
      if validHex64 h then some (env.finalize unsigned (hexToBytes h)) else none
    | none => none

/-- `handleSend` (Chat.tsx 305-378).  `prev` is the working set at the
time the publish race resolves and `cache` the durable cache store;
`extSign` and `finalize` are the external signing capabilities, and
`publishOk` records whether `Promise.any` of the per-relay publishes
fulfilled.  Returns the outcome, the new working set, and the new cache. -/
def handleSend (env : SendEnv) (group input nickname secretInput : String)
    (ephemeralSkHex : Option String) (nowMs : Nat)
    (prev : List ChatMessage) (cache : CacheStorage) :
    SendOutcome × List ChatMessage × CacheStorage :=
  if (jsTrim input).toList.isEmpty then (.silentAbort, prev, cache)
  else
    match signFor env (buildTemplate group input nickname nowMs) secretInput ephemeralSkHex with
    | none => (.signingUnavailable, prev, cache)
    | some signed =>
      if env.publishOk then
        if prev.any (fun m => m.id == signed.id) then (.published signed, prev, cache)
        else
          let next := sortMsgs (prev ++ [signed])
          (.published signed, next, saveCachedMessages cache (normalizeGroup group) next)
      else (.publishFailed, prev, cache)

/-- The conditions under which `handleSend` cannot resolve an identity for
the current mode (Chat.tsx 324, 332, 339). -/
def identityUnresolvable (env : SendEnv) (secretInput : String)
    (ephemeralSkHex : Option String) : Bool :=
  match env.signMode with
  | .extension => !env.isNip07
  | .localKey => (parseSecretKey env.nsecDecode secretInput).isNone
  | .auto =>
    match ephemeralSkHex with
    | some h => !validHex64 h
    | none => true

/-- A concrete stand-in for the external `finalizeEvent` capability, used
only to instantiate theorems at concrete inputs. -/
def stubFinalize : EventTemplate → List Nat → ChatMessage :=
  fun t _ => ⟨"e9", t.content, "pk9", t.created_at, t.tags⟩

/-- A concrete stand-in for the external NIP-07 `signEvent` capability. -/
def stubExtSign : EventTemplate → ChatMessage :=
  fun t => ⟨"eX", t.content, "pkX", t.created_at, t.tags⟩

/-- A concrete auto-mode environment with an always-successful publish. -/
def autoEnv : SendEnv :=
  { signMode := .auto, isNip07 := false, extSign := stubExtSign,
    nsecDecode := fun _ => none, finalize := stubFinalize, publishOk := true }

/-- A concrete local-key environment whose NIP-19 decoder always fails. -/
def localEnv : SendEnv :=
  { signMode := .localKey, isNip07 := false, extSign := stubExtSign,
    nsecDecode := fun _ => none, finalize := stubFinalize, publishOk := true }

/-- A 64-character all-zero hex string: a valid persisted ephemeral secret. -/
def zeros64 : String := String.mk (List.replicate 64 '0')

/-- A fresh 32-byte secret distinct from the all-zero secret. -/
def ones32 : List Nat := List.replicate 32 1

/-- A sample admitted message on channel `abc`. -/
def mAbc1 : ChatMessage := ⟨"e1", "hello", "pk1", 100, [["g", "abc"], ["t", "teleport"]]⟩

/-- A second sample message on channel `abc` with an earlier timestamp. -/
def mAbc2 : ChatMessage := ⟨"e2", "world", "pk2", 50, [["g", "abc"], ["t", "teleport"]]⟩

/-- A duplicate of `mAbc1`: same `id`, different `created_at`. -/
def mAbc1Dup : ChatMessage := ⟨"e1", "hello", "pk1", 200, [["g", "abc"], ["t", "teleport"]]⟩

/-- A sample message tagged for a different channel. -/
def mOther : ChatMessage := ⟨"e9", "hi", "pk9", 150, [["g", "other"], ["t", "teleport"]]⟩

/-- Executable check that one byte below 256 round-trips through its padded
two-digit hex rendering: exactly two characters, both already lower-case,
decoding back to the byte. -/
def byteRT (b : Nat) : Bool :=
  ((byteHexChars b).length == 2) &&
  ((byteHexChars b).map Char.toLower == byteHexChars b) &&
  (hexPairs (byteHexChars b) == [b])

set_option maxRecDepth 100000

theorem byteRT_all : ∀ b, b < 256 → byteRT b = true := by decide

theorem byteHexChars_pair {b : Nat} (hb : b < 256) :
    ∃ c1 c2, byteHexChars b = [c1, c2] ∧ Char.toLower c1 = c1 ∧ Char.toLower c2 = c2
      ∧ jsParseIntPair c1 c2 = b := by
  have h := byteRT_all b hb
  unfold byteRT at h
  simp only [Bool.and_eq_true, beq_iff_eq] at h
  obtain ⟨⟨hlen, hlow⟩, hdec⟩ := h
  obtain ⟨c1, c2, hc⟩ := List.length_eq_two.mp hlen
  rw [hc] at hlow hdec
  simp only [List.map_cons, List.map_nil, List.cons.injEq, and_true] at hlow
  simp only [hexPairs, List.cons.injEq, and_true] at hdec
  exact ⟨c1, c2, hc, hlow.1, hlow.2, hdec⟩

theorem hexPairs_flatten : ∀ bs : List Nat, (∀ b ∈ bs, b < 256) →
    hexPairs (((bs.map byteHexChars).flatten).map Char.toLower) = bs := by
  intro bs
  induction bs with
  | nil => intro _; rfl
  | cons b rest ih =>
    intro h
    obtain ⟨c1, c2, hc, l1, l2, hv⟩ := byteHexChars_pair (h b (List.mem_cons_self b rest))
    have hrest := ih (fun x hx => h x (List.mem_cons_of_mem _ hx))
    simp only [List.map_cons, List.flatten_cons, hc, List.map_append, List.cons_append,
      List.nil_append]
    rw [l1, l2]
    simp only [hexPairs]
    rw [hv, hrest]

theorem hexPairs_length : ∀ cs : List Char, (hexPairs cs).length = cs.length / 2
  | [] => by simp [hexPairs]
  | [_] => by simp [hexPairs]
  | c1 :: c2 :: rest => by
    simp only [hexPairs, List.length_cons, hexPairs_length rest]
    omega

/-- The re-sort is a permutation, so the id multiset is unchanged. -/
theorem wsIds_sortMsgs_perm (l : List ChatMessage) :
    List.Perm (wsIds (sortMsgs l)) (wsIds l) :=
  (List.perm_insertionSort byTime l).map ChatMessage.id

/-- The re-sort produces an ascending sequence of timestamps. -/
theorem sortMsgs_chain' (l : List ChatMessage) : List.Chain' byTime (sortMsgs l) :=
  List.Pairwise.chain' (List.sorted_insertionSort byTime l)

theorem mem_wsIds_any {prev : List ChatMessage} {ev : ChatMessage}
    (h : ev.id ∈ wsIds prev) : prev.any (fun m => m.id == ev.id) = true := by
  rw [wsIds, List.mem_map] at h
  obtain ⟨m, hm, hid⟩ := h
  exact List.any_eq_true.mpr ⟨m, hm, by simp [hid]⟩

theorem not_mem_wsIds_of_any_eq_false {prev : List ChatMessage} {ev : ChatMessage}
    (h : prev.any (fun m => m.id == ev.id) = false) : ev.id ∉ wsIds prev := by
  intro hmem
  rw [mem_wsIds_any hmem] at h
  exact absurd h (by simp)

theorem admitCore_dup {prev : List ChatMessage} {ev : ChatMessage}
    (h : ev.id ∈ wsIds prev) : admitCore prev ev = prev := by
  unfold admitCore
  simp [mem_wsIds_any h]

theorem admitCore_nodup {prev : List ChatMessage} (ev : ChatMessage)
    (h : (wsIds prev).Nodup) : (wsIds (admitCore prev ev)).Nodup := by
  unfold admitCore
  by_cases hany : prev.any (fun m => m.id == ev.id) = true
  · simp only [hany, if_true]
    exact h
  · have hfalse : prev.any (fun m => m.id == ev.id) = false := by
      cases hx : prev.any (fun m => m.id == ev.id)
      · rfl
      · exact absurd hx hany
    have hne : ev.id ∉ wsIds prev := not_mem_wsIds_of_any_eq_false hfalse
    simp only [hfalse, Bool.false_eq_true, if_false]
    refine ((wsIds_sortMsgs_perm (prev ++ [ev])).nodup_iff).mpr ?_
    have hsplit : wsIds (prev ++ [ev]) = wsIds prev ++ [ev.id] := by
      simp [wsIds]
    rw [hsplit]
    exact List.Nodup.append h (List.nodup_singleton _)
      (fun a ha hb => hne ((List.mem_singleton.mp hb) ▸ ha))

theorem admitCore_chain' {prev : List ChatMessage} (ev : ChatMessage)
    (h : List.Chain' byTime prev) : List.Chain' byTime (admitCore prev ev) := by
  unfold admitCore
  by_cases hany : prev.any (fun m => m.id == ev.id) = true
  · simp only [hany, if_true]
    exact h
  · have hfalse : prev.any (fun m => m.id == ev.id) = false := by
      cases hx : prev.any (fun m => m.id == ev.id)
      · rfl
      · exact absurd hx hany
    simp only [hfalse, Bool.false_eq_true, if_false]
    exact sortMsgs_chain' _

theorem admitCandidate_cases (normalized : String) (prev : List ChatMessage)
    (c : Candidate) :
    admitCandidate normalized prev c = admitCore prev (candidateEvent c)
    ∨ admitCandidate normalized prev c = prev := by
  cases c with
  | net ev =>
    by_cases hg : (msgGroup ev == normalized && getTagValue ev.tags "t" == some "teleport") = true
    · left
      show oneventAdmit normalized prev ev = admitCore prev ev
      unfold oneventAdmit
      rw [if_pos hg]
    · right
      show oneventAdmit normalized prev ev = prev
      unfold oneventAdmit
      rw [if_neg hg]
  | pub ev =>
    left
    rfl

theorem admitCandidate_nodup (normalized : String) {prev : List ChatMessage}
    (c : Candidate) (h : (wsIds prev).Nodup) :
    (wsIds (admitCandidate normalized prev c)).Nodup := by
  rcases admitCandidate_cases normalized prev c with hc | hc
  · rw [hc]; exact admitCore_nodup _ h
  · rw [hc]; exact h

theorem admitCandidate_chain' (normalized : String) {prev : List ChatMessage}
    (c : Candidate) (h : List.Chain' byTime prev) :
    List.Chain' byTime (admitCandidate normalized prev c) := by
  rcases admitCandidate_cases normalized prev c with hc | hc
  · rw [hc]; exact admitCore_chain' _ h
  · rw [hc]; exact h

theorem admitCandidate_dup (normalized : String) {prev : List ChatMessage}
    (c : Candidate) (h : (candidateEvent c).id ∈ wsIds prev) :
    admitCandidate normalized prev c = prev := by
  rcases admitCandidate_cases normalized prev c with hc | hc
  · rw [hc]; exact admitCore_dup h
  · exact hc

theorem foldl_admit_nodup (normalized : String) (cs : List Candidate) :
    ∀ prev : List ChatMessage, (wsIds prev).Nodup →
      (wsIds (cs.foldl (admitCandidate normalized) prev)).Nodup := by
  induction cs with
  | nil => intro prev h; exact h
  | cons c cs ih =>
    intro prev h
    rw [List.foldl_cons]
    exact ih _ (admitCandidate_nodup normalized c h)

theorem foldl_admit_chain' (normalized : String) (cs : List Candidate) :
    ∀ prev : List ChatMessage, List.Chain' byTime prev →
      List.Chain' byTime (cs.foldl (admitCandidate normalized) prev) := by
  induction cs with
  | nil => intro prev h; exact h
  | cons c cs ih =>
    intro prev h
    rw [List.foldl_cons]
    exact ih _ (admitCandidate_chain' normalized c h)

theorem jsStartsWith_nsec_empty {u : String} (h : u.toList = []) :
    jsStartsWith u "nsec" = false := by
  unfold jsStartsWith
  rw [h]
  rfl

theorem toList_eq_nil_of_isEmpty {u : String} (h : u.toList.isEmpty = true) :
    u.toList = [] := by
  cases hx : u.toList
  · rfl
  · rw [hx] at h
    exact absurd h (by simp)

theorem rawHexForm_empty {u : String} (h : u.toList = []) :
    rawHexForm u = false := by
  have h0 : jsStartsWith u "0x" = false := by
    unfold jsStartsWith
    rw [h]
    rfl
  have hl : u.length = 0 := by
    show u.toList.length = 0
    rw [h]
    rfl
  unfold rawHexForm strip0x
  rw [h0]
  simp only [Bool.false_eq_true, if_false]
  unfold validHex64
  rw [hl]
  rfl

theorem validHex64_toList_length {u : String} (h : validHex64 u = true) :
    u.toList.length = 64 := by
  unfold validHex64 at h
  rw [Bool.and_eq_true] at h
  have h64 : u.length = 64 := by simpa using h.1
  exact h64

/-- C1 (code-bug evaluation): a valid 64-hex ephemeral secret is persisted,
no extension is present, so the initial signing mode is auto.  The two
mount effects run in one flush over the mounted render's state snapshot:
the ensure effect's guard sees `ephemeralSkHex = none` (the load effect's
queued update has not committed), so it generates a fresh secret and
overwrites the persisted one — the activation after this reload does not
resolve the identical secret.  By contrast, an activation whose closure
sees the committed post-load state does reuse the persisted secret. -/
theorem ephemeral_reload_regenerates :
    validHex64 zeros64 = true
    ∧ (mountAuto (fun _ => "") ones32 (some zeros64) SignMode.auto).2
        = some (bytesToHex ones32)
    ∧ (mountAuto (fun _ => "") ones32 (some zeros64) SignMode.auto).1.ephemeralSkHex
        = some (bytesToHex ones32)
    ∧ bytesToHex ones32 ≠ zeros64
    ∧ (activateAuto (fun _ => "") ones32
        (loadEffect (fun _ => "") (some zeros64) ⟨none, none⟩)
        (some zeros64)).1.ephemeralSkHex = some zeros64 := by
  refine ⟨by decide, by decide, by decide, by decide, by decide⟩

/-- C2: starting from a Working Set with duplicate-free ids, any sequence of
admitted candidates — network events or optimistic publishes — keeps the ids
duplicate-free, and admitting a candidate whose id is already present
returns the Working Set entirely unchanged (every existing entry keeps all
its fields, including `created_at`; the duplicate never overwrites). -/
theorem workingSet_dedup (normalized : String) (prev : List ChatMessage)
    (cs : List Candidate) (h : (wsIds prev).Nodup) :
    (wsIds (cs.foldl (admitCandidate normalized) prev)).Nodup
    ∧ ∀ c : Candidate, (candidateEvent c).id ∈ wsIds prev →
        admitCandidate normalized prev c = prev :=
  ⟨foldl_admit_nodup normalized cs prev h,
   fun c hc => admitCandidate_dup normalized c hc⟩

/-- C2 witness: from `[mAbc1]`, admitting a fresh network event keeps ids
duplicate-free, and a publish candidate with the already-present id `e1`
but `created_at` 200 is discarded, leaving the set unchanged. -/
theorem workingSet_dedup_witness :
    (wsIds [mAbc1]).Nodup
    ∧ (wsIds ([Candidate.net mAbc2, Candidate.pub mAbc1Dup].foldl
        (admitCandidate "abc") [mAbc1])).Nodup
    ∧ admitCandidate "abc" [mAbc1] (Candidate.pub mAbc1Dup) = [mAbc1] :=
  ⟨by decide,
   (workingSet_dedup "abc" [mAbc1] [Candidate.net mAbc2, Candidate.pub mAbc1Dup]
      (by decide)).1,
   (workingSet_dedup "abc" [mAbc1] [] (by decide)).2 (Candidate.pub mAbc1Dup) (by decide)⟩

/-- C3: if the Working Set is non-decreasing by `created_at`, it remains so
after every admission (network or optimistic publish): adjacent entries
always satisfy `created_at ≤ created_at`. -/
theorem workingSet_sorted_after_admission (normalized : String)
    (prev : List ChatMessage) (cs : List Candidate)
    (h : List.Chain' byTime prev) :
    List.Chain' byTime (cs.foldl (admitCandidate normalized) prev) :=
  foldl_admit_chain' normalized cs prev h

/-- C3 witness: admissions onto the sorted singleton `[mAbc1]` (including an
out-of-order network event with a smaller timestamp) keep the sequence
non-decreasing by `created_at`. -/
theorem workingSet_sorted_after_admission_witness :
    List.Chain' byTime [mAbc1]
    ∧ List.Chain' byTime ([Candidate.net mAbc2, Candidate.pub mOther].foldl
        (admitCandidate "abc") [mAbc1]) :=
  ⟨by simp,
   workingSet_sorted_after_admission "abc" [mAbc1]
     [Candidate.net mAbc2, Candidate.pub mOther] (by simp)⟩

/-- C4: saving a Working Set for a channel and then hydrating that channel
yields exactly the channel-filtered form of the last-500 truncation, and
every hydrated entry's group tag normalizes to the channel's normalized
name. -/
theorem cache_roundtrip (group : String) (st : CacheStorage)
    (events : List ChatMessage) (nowMs : Nat) :
    (subscribeEffect group (saveCachedMessages st (normalizeGroup group) events) nowMs).1
      = channelFilter (normalizeGroup group) (events.drop (events.length - 500))
    ∧ ∀ m ∈ (subscribeEffect group (saveCachedMessages st (normalizeGroup group) events)
        nowMs).1, msgGroup m = normalizeGroup group := by
  have hload :
      loadCachedMessages (saveCachedMessages st (normalizeGroup group) events)
        (normalizeGroup group) = events.drop (events.length - 500) := by
    unfold loadCachedMessages saveCachedMessages
    simp
  have h1 : (subscribeEffect group (saveCachedMessages st (normalizeGroup group) events)
      nowMs).1 = channelFilter (normalizeGroup group) (events.drop (events.length - 500)) := by
    show channelFilter (normalizeGroup group)
        (loadCachedMessages (saveCachedMessages st (normalizeGroup group) events)
          (normalizeGroup group)) = _
    rw [hload]
  refine ⟨h1, ?_⟩
  intro m hm
  rw [h1] at hm
  unfold channelFilter at hm
  exact eq_of_beq (List.mem_filter.mp hm).2

/-- C5 counterexample: the optimistic publish admission performs no tag
re-validation.  A publish begun on channel `Other` that resolves after the
active channel has switched to `abc` (whose Working Set is `[]`) is still
inserted: the resulting Working Set holds an event whose group tag
normalizes to `"other"`, not `"abc"`. -/
theorem publish_admission_stale_insert :
    (handleSend autoEnv "Other" "hi" "nick" "" (some zeros64) 5000 []
        (fun _ => none)).2.1
      = [⟨"e9", "hi", "pk9", 5, [["g", "Other"], ["t", "teleport"], ["n", "nick"]]⟩]
    ∧ msgGroup ⟨"e9", "hi", "pk9", 5, [["g", "Other"], ["t", "teleport"], ["n", "nick"]]⟩
      ≠ "abc" := by
  refine ⟨by decide, by decide⟩

/-- C5 (amended): only the network-subscription admission re-validates the
group and topic tags against the active channel: a network event whose
group tag does not normalize to the active channel, or whose topic tag is
not `teleport`, is never inserted.  The optimistic publish admission
performs no such re-validation (see the counterexample). -/
theorem network_admission_revalidates (normalized : String)
    (prev : List ChatMessage) (ev : ChatMessage)
    (h : msgGroup ev ≠ normalized ∨ getTagValue ev.tags "t" ≠ some "teleport") :
    oneventAdmit normalized prev ev = prev := by
  unfold oneventAdmit
  have hcond : (msgGroup ev == normalized
      && getTagValue ev.tags "t" == some "teleport") = false := by
    rcases h with h | h
    · have hf : (msgGroup ev == normalized) = false := beq_eq_false_iff_ne.mpr h
      simp [hf]
    · have hf : (getTagValue ev.tags "t" == some "teleport") = false :=
        beq_eq_false_iff_ne.mpr h
      simp [hf]
  simp [hcond]

/-- C5 amended-claim witness: a network event for channel `other` is
discarded by the admission of channel `abc`. -/
theorem network_admission_revalidates_witness :
    msgGroup mOther ≠ "abc"
    ∧ oneventAdmit "abc" [mAbc1] mOther = [mAbc1] :=
  ⟨by decide,
   network_admission_revalidates "abc" [mAbc1] mOther (Or.inl (by decide))⟩

/-- C6 counterexample: for group `AbC` and nickname `" bob "`, the built
template's group tag keeps the original casing (`"AbC"`, not the
lower-cased `"abc"` the claim states), and the display-name tag holds the
trimmed nickname `"bob"`, not the raw current nickname `" bob "`. -/
theorem template_not_lowercased :
    getTagValue (buildTemplate "AbC" "hi" " bob " 5000).tags "g" = some "AbC"
    ∧ normalizeGroup "AbC" = "abc"
    ∧ (buildTemplate "AbC" "hi" " bob " 5000).tags
        ≠ [["g", normalizeGroup "AbC"], ["t", "teleport"], ["n", " bob "]]
    ∧ getTagValue (buildTemplate "AbC" "hi" " bob " 5000).tags "n" = some "bob" := by
  refine ⟨by decide, by decide, by decide, by decide⟩

/-- C6 (amended): the template built by send carries kind 20000, the
current unix-seconds timestamp, the trimmed text, and exactly the tags
[group tag = channel stripped of one leading `#` (not lower-cased),
topic tag = `teleport`, display-name tag = trimmed nickname]. -/
theorem send_template_amended (group input nickname : String) (nowMs : Nat) :
    (buildTemplate group input nickname nowMs).kind = 20000
    ∧ (buildTemplate group input nickname nowMs).created_at = nowMs / 1000
    ∧ (buildTemplate group input nickname nowMs).content = jsTrim input
    ∧ (buildTemplate group input nickname nowMs).tags
        = [["g", stripHash group], ["t", "teleport"], ["n", jsTrim nickname]]
    ∧ getTagValue (buildTemplate group input nickname nowMs).tags "g"
        = some (stripHash group)
    ∧ getTagValue (buildTemplate group input nickname nowMs).tags "t" = some "teleport"
    ∧ getTagValue (buildTemplate group input nickname nowMs).tags "n"
        = some (jsTrim nickname) := by
  refine ⟨rfl, rfl, rfl, rfl, ?_, ?_, ?_⟩
  · simp [buildTemplate, getTagValue]
  · simp [buildTemplate, getTagValue]
  · simp [buildTemplate, getTagValue]

theorem data_ne_nil_of_isEmpty_false {u : String} (h : u.toList.isEmpty = false) :
    u.data ≠ [] := by
  intro hx
  have hx' : u.toList.isEmpty = true := by
    show u.data.isEmpty = true
    rw [hx]
    rfl
  rw [hx'] at h
  exact absurd h (by simp)

theorem signFor_none_of_unresolvable (env : SendEnv) (unsigned : EventTemplate)
    (secretInput : String) (ephemeralSkHex : Option String)
    (h : identityUnresolvable env secretInput ephemeralSkHex = true) :
    signFor env unsigned secretInput ephemeralSkHex = none := by
  unfold identityUnresolvable at h
  unfold signFor
  cases henv : env.signMode with
  | extension =>
    rw [henv] at h
    have hn : env.isNip07 = false := by simpa using h
    simp [hn]
  | localKey =>
    rw [henv] at h
    cases hp : parseSecretKey env.nsecDecode secretInput with
    | none => simp
    | some sk =>
      rw [hp] at h
      simp at h
  | auto =>
    rw [henv] at h
    cases ephemeralSkHex with
    | none => simp
    | some s =>
      have hv : validHex64 s = false := by simpa using h
      simp [hv]

/-- C7 (amended): a send whose text is empty after trimming aborts
silently (no notice is surfaced — not a `SigningUnavailable`); a send with
non-empty trimmed text whose identity cannot be resolved under the current
mode (extension mode with no extension, local mode with an unparseable
secret, auto mode with no valid ephemeral secret) fails with
`SigningUnavailable`; in every such case the Working Set and the cache are
left unchanged and there is no retry. -/
theorem send_precondition_guards (env : SendEnv)
    (group input nickname secretInput : String) (ephemeralSkHex : Option String)
    (nowMs : Nat) (prev : List ChatMessage) (cache : CacheStorage)
    (h : (jsTrim input).toList.isEmpty = true
      ∨ identityUnresolvable env secretInput ephemeralSkHex = true) :
    ((jsTrim input).toList.isEmpty = true →
        (handleSend env group input nickname secretInput ephemeralSkHex nowMs prev cache).1
          = SendOutcome.silentAbort
        ∧ surfacesNotice (handleSend env group input nickname secretInput ephemeralSkHex
            nowMs prev cache).1 = false
        ∧ (handleSend env group input nickname secretInput ephemeralSkHex nowMs prev
            cache).1 ≠ SendOutcome.signingUnavailable)
    ∧ (handleSend env group input nickname secretInput ephemeralSkHex nowMs prev cache).2.1
        = prev
    ∧ (handleSend env group input nickname secretInput ephemeralSkHex nowMs prev cache).2.2
        = cache
    ∧ ((jsTrim input).toList.isEmpty = false →
        (handleSend env group input nickname secretInput ephemeralSkHex nowMs prev cache).1
          = SendOutcome.signingUnavailable
        ∧ surfacesNotice (handleSend env group input nickname secretInput ephemeralSkHex
            nowMs prev cache).1 = true) := by
  by_cases hemp : (jsTrim input).toList.isEmpty = true
  · have hnil : (jsTrim input).data = [] := toList_eq_nil_of_isEmpty hemp
    unfold handleSend
    simp [hnil, hemp, surfacesNotice]
  · have hempf : (jsTrim input).toList.isEmpty = false := by
      cases hx : (jsTrim input).toList.isEmpty
      · rfl
      · exact absurd hx hemp
    have hne : (jsTrim input).data ≠ [] := by
      intro hx
      have hx' : (jsTrim input).toList.isEmpty = true := by
        show (jsTrim input).data.isEmpty = true
        rw [hx]
        rfl
      rw [hx'] at hempf
      exact absurd hempf (by simp)
    have hid : identityUnresolvable env secretInput ephemeralSkHex = true := by
      rcases h with h | h
      · exact absurd h hemp
      · exact h
    have hs := signFor_none_of_unresolvable env (buildTemplate group input nickname nowMs)
      secretInput ephemeralSkHex hid
    unfold handleSend
    simp [hne, hempf, hs, surfacesNotice]

/-- C7 witness: spec scenario 3 — local mode with the invalid secret
`zzz` and text `hi` yields `SigningUnavailable` (surfaced) and leaves the
Working Set `[mAbc1]` unchanged — and the empty-text case at input `" "`,
where the same theorem yields a silent abort with no notice. -/
theorem send_precondition_guards_witness :
    identityUnresolvable localEnv "zzz" none = true
    ∧ (handleSend localEnv "abc" "hi" "nick" "zzz" none 1000 [mAbc1] (fun _ => none)).1
        = SendOutcome.signingUnavailable
    ∧ (handleSend localEnv "abc" "hi" "nick" "zzz" none 1000 [mAbc1] (fun _ => none)).2.1
        = [mAbc1]
    ∧ (handleSend localEnv "abc" " " "nick" "zzz" none 1000 [mAbc1] (fun _ => none)).1
        = SendOutcome.silentAbort
    ∧ surfacesNotice (handleSend localEnv "abc" " " "nick" "zzz" none 1000 [mAbc1]
        (fun _ => none)).1 = false :=
  ⟨by decide,
   ((send_precondition_guards localEnv "abc" "hi" "nick" "zzz" none 1000 [mAbc1]
      (fun _ => none) (Or.inr (by decide))).2.2.2 (by decide)).1,
   (send_precondition_guards localEnv "abc" "hi" "nick" "zzz" none 1000 [mAbc1]
      (fun _ => none) (Or.inr (by decide))).2.1,
   ((send_precondition_guards localEnv "abc" " " "nick" "zzz" none 1000 [mAbc1]
      (fun _ => none) (Or.inl (by decide))).1 (by decide)).1,
   ((send_precondition_guards localEnv "abc" " " "nick" "zzz" none 1000 [mAbc1]
      (fun _ => none) (Or.inl (by decide))).1 (by decide)).2.1⟩

/-- C7 counterexample: a send whose text is empty after trimming does not
fail with a surfaced `SigningUnavailable` as the claim states — it aborts
silently with no notice. -/
theorem send_empty_text_silent :
    (handleSend autoEnv "abc" "   " "nick" "" (some zeros64) 5000 [] (fun _ => none)).1
      = SendOutcome.silentAbort
    ∧ (handleSend autoEnv "abc" "   " "nick" "" (some zeros64) 5000 [] (fun _ => none)).1
      ≠ SendOutcome.signingUnavailable
    ∧ surfacesNotice
        (handleSend autoEnv "abc" "   " "nick" "" (some zeros64) 5000 [] (fun _ => none)).1
      = false := by
  refine ⟨by decide, by decide, by decide⟩

/-- C8: `parseSecretKey` never throws (it is a total function); every
secret it returns from the hex path is 32 bytes, and with a decoder that
returns 32-byte secrets the same holds on the `nsec` path; a trimmed input
in raw 64-hex form (optionally `0x`-prefixed, surrounding whitespace
ignored) yields a secret; an input that is neither `nsec`-prefixed nor in
raw hex form yields `none`; an `nsec`-prefixed input delegates to the
external decoder (whose failure also yields `none`). -/
theorem parseSecretKey_spec (nsecDecode : String → Option (List Nat))
    (h32 : ∀ s b, nsecDecode s = some b → b.length = 32) (text : String) :
    (∀ b, parseSecretKey nsecDecode text = some b → b.length = 32)
    ∧ (jsStartsWith (jsTrim text) "nsec" = false → rawHexForm (jsTrim text) = true →
        (parseSecretKey nsecDecode text).isSome = true)
    ∧ (jsStartsWith (jsTrim text) "nsec" = false → rawHexForm (jsTrim text) = false →
        parseSecretKey nsecDecode text = none)
    ∧ (jsStartsWith (jsTrim text) "nsec" = true →
        parseSecretKey nsecDecode text = nsecDecode (jsTrim text)) := by
  refine ⟨?_, ?_, ?_, ?_⟩
  · intro b hb
    unfold parseSecretKey at hb
    by_cases hE : (jsTrim text).toList.isEmpty = true
    · rw [if_pos hE] at hb
      exact absurd hb (by simp)
    · rw [if_neg hE] at hb
      by_cases hns : jsStartsWith (jsTrim text) "nsec" = true
      · rw [if_pos hns] at hb
        exact h32 _ _ hb
      · rw [if_neg hns] at hb
        by_cases hhx : rawHexForm (jsTrim text) = true
        · rw [if_pos hhx] at hb
          have hb' : hexPairs (strip0x (jsTrim text)).toList = b := by
            exact Option.some.inj hb
          have hlen : (strip0x (jsTrim text)).toList.length = 64 :=
            validHex64_toList_length hhx
          rw [← hb', hexPairs_length, hlen]
        · rw [if_neg hhx] at hb
          exact absurd hb (by simp)
  · intro hns hhex
    have hEf : (jsTrim text).toList.isEmpty = false := by
      cases hx : (jsTrim text).toList.isEmpty
      · rfl
      · rw [rawHexForm_empty (toList_eq_nil_of_isEmpty hx)] at hhex
        exact absurd hhex (by simp)
    have hne := data_ne_nil_of_isEmpty_false hEf
    unfold parseSecretKey
    simp [hne, hns, hhex]
  · intro hns hhex
    unfold parseSecretKey
    by_cases hE : (jsTrim text).toList.isEmpty = true
    · have hnil : (jsTrim text).data = [] := toList_eq_nil_of_isEmpty hE
      simp [hnil]
    · have hEf : (jsTrim text).toList.isEmpty = false := by
        cases hx : (jsTrim text).toList.isEmpty
        · rfl
        · exact absurd hx hE
      have hne := data_ne_nil_of_isEmpty_false hEf
      simp [hne, hns, hhex]
  · intro hns
    have hEf : (jsTrim text).toList.isEmpty = false := by
      cases hx : (jsTrim text).toList.isEmpty
      · rfl
      · rw [jsStartsWith_nsec_empty (toList_eq_nil_of_isEmpty hx)] at hns
        exact absurd hns (by simp)
    have hne := data_ne_nil_of_isEmpty_false hEf
    unfold parseSecretKey
    simp [hne, hns]

/-- C8 witness: a whitespace-wrapped, `0x`-prefixed, mixed-case 64-hex
input parses to a 32-byte secret, and a non-hex input yields `none`. -/
theorem parseSecretKey_spec_witness :
    rawHexForm (jsTrim
        "  0x0123456789abcdef0123456789ABCDEF0123456789abcdef0123456789abcdef  ") = true
    ∧ (parseSecretKey (fun _ => none)
        "  0x0123456789abcdef0123456789ABCDEF0123456789abcdef0123456789abcdef  ").isSome
      = true
    ∧ parseSecretKey (fun _ => none) "zzz" = none :=
  ⟨by decide,
   (parseSecretKey_spec (fun _ => none) (fun _ _ hsb => Option.noConfusion hsb)
      "  0x0123456789abcdef0123456789ABCDEF0123456789abcdef0123456789abcdef  ").2.1
     (by decide) (by decide),
   (parseSecretKey_spec (fun _ => none) (fun _ _ hsb => Option.noConfusion hsb)
      "zzz").2.2.1 (by decide) (by decide)⟩

/-- C9: for every channel selection, the subscription filter list is
exactly one filter: kind 20000, group tag the lower-cased channel name
stripped of one leading `#`, topic tag `teleport`, `since` the current
unix-seconds time minus 24 hours, and limit 500. -/
theorem subscription_filter_shape (group : String) (st : CacheStorage) (nowMs : Nat) :
    (subscribeEffect group st nowMs).2
      = [{ kinds := [20000], gTags := [jsToLower (stripHash group)],
           tTags := ["teleport"], since := ((nowMs / 1000 : Nat) : Int) - 86400,
           limit := 500 }] := by
  show [({ kinds := [20000], gTags := [normalizeGroup group], tTags := ["teleport"],
           since := ((nowMs / 1000 : Nat) : Int) - (60 * 60 * 24 : Int),
           limit := 500 } : NostrFilter)] = _
  norm_num [normalizeGroup]

/-- C10: converting a 32-byte array to hex and back is the identity, so
any public-key derivation agrees on the persisted hex form of an ephemeral
secret and on the original secret bytes. -/
theorem hexToBytes_bytesToHex (bs : List Nat) (pk : List Nat → String)
    (hlen : bs.length = 32) (hbyte : ∀ b ∈ bs, b < 256) :
    hexToBytes (bytesToHex bs) = bs ∧ pk (hexToBytes (bytesToHex bs)) = pk bs := by
  have h : hexToBytes (bytesToHex bs) = bs := by
    show hexPairs (((bs.map byteHexChars).flatten).map Char.toLower) = bs
    exact hexPairs_flatten bs hbyte
  exact ⟨h, by rw [h]⟩

/-- C10 witness: the round trip evaluated on a concrete 32-byte array. -/
theorem hexToBytes_bytesToHex_witness :
    (List.replicate 32 171).length = 32
    ∧ (∀ b ∈ List.replicate 32 (171 : Nat), b < 256)
    ∧ hexToBytes (bytesToHex (List.replicate 32 171)) = List.replicate 32 171 :=
  ⟨by decide, by decide,
   (hexToBytes_bytesToHex (List.replicate 32 171) (fun _ => "") (by decide)
      (by decide)).1⟩
